import Mathlib

/-
Verification of the call-center conversation analyzer (src/script.py).

Modelling conventions:
* Python numbers (stime and etime fields, durations, percentages) are
  modelled as rationals; Python float division is exact rational division.
* A Python utterance dict is the structure `Utterance`; the possibly
  absent or non-string "text" value is `Option PyVal` where `none` models
  a missing "text" key and `PyVal.VNone` models a non-string value
  (Python None).
* Python dicts that the code iterates or looks up by string key
  (the sensitive-info dict, the verification-state dict, the metrics
  dict) are association lists in insertion order, matching Python 3.7+
  dict ordering.
* Python exceptions are modelled with `Except PyError`; a raised
  exception is the `.error` constructor.
* Python regular expressions are embedded as terms of the `RE` syntax
  and run by a fuel-bounded backtracking matcher `reM` that reproduces
  the `re` module semantics needed here: left-first alternation, greedy
  quantifiers, word boundaries, and leftmost non-overlapping `findall`
  scanning.  `findall` on a pattern without capturing groups returns the
  full matched substrings; for the patterns that do contain groups the
  model also returns full matched substrings (Python would return group
  tuples there) — no theorem below inspects those values.
-/

set_option maxRecDepth 10000

attribute [local semireducible] Rat.sub Rat.add Rat.mul Rat.inv

namespace CallAnalyzer

/-- ASCII lowercasing of one character, what Python `str.lower` does on
the ASCII inputs of this analyzer. -/
def lowerChar (c : Char) : Char :=
  if 'A' ≤ c && c ≤ 'Z' then Char.ofNat (c.toNat + 32) else c

/-- Python `text.lower()` for ASCII text. -/
def pyLower (s : String) : String := String.mk (s.data.map lowerChar)

/-- Python value stored under the "text" key of an utterance: either a
string or a non-string value (modelled by the Python constant None). -/
inductive PyVal where
  | VStr (s : String)
  | VNone
deriving DecidableEq

/-- One speech turn, as consumed by `analyze_call`: speaker string,
possibly-absent text value, start and end offsets. -/
structure Utterance where
  speaker : String
  text : Option PyVal
  stime : ℚ
  etime : ℚ
deriving DecidableEq

/-- Python exceptions that the analyzer can raise.  `inputError` is not
raised by any code path of the script; it exists only to express the
spec-side notion of a structured Input error (see
`isStructuredInputError`). -/
inductive PyError where
  | valueError (msg : String)
  | keyError (key : String)
  | attributeError (attr : String)
  | inputError (msg : String)
deriving DecidableEq

/-- `str(v)` for the modelled Python values. -/
def pyStr : PyVal → String
  | .VStr s => s
  | .VNone => "None"

/-! ### Regular-expression syntax and matcher -/

/-- Regular-expression syntax: empty string, single-character class,
concatenation, alternation (left-first preference), greedy Kleene star,
and the zero-width word-boundary assertion `\b`. -/
inductive RE where
  | eps
  | cls (p : Char → Bool)
  | cat (r1 r2 : RE)
  | alt (r1 r2 : RE)
  | star (r : RE)
  | wb

/-- Size of a regular expression, used to compute matcher fuel. -/
def sizeRE : RE → Nat
  | .eps => 1
  | .cls _ => 1
  | .wb => 1
  | .cat r1 r2 => sizeRE r1 + sizeRE r2 + 1
  | .alt r1 r2 => sizeRE r1 + sizeRE r2 + 1
  | .star r1 => sizeRE r1 + 1

/-- Python `\w`: alphanumeric or underscore (ASCII inputs). -/
def wordChar (c : Char) : Bool := c.isAlphanum || c = '_'

/-- Python `\b`: the previous character and the next character disagree
about being word characters (absent characters count as non-word). -/
def wordBoundary (prev : Option Char) (s : List Char) : Bool :=
  let a := match prev with
    | some c => wordChar c
    | none => false
  let b := match s with
    | c :: _ => wordChar c
    | [] => false
  a != b

/-- Backtracking matcher in continuation-passing style.  `prev` is the
character immediately before the current position (for `\b`), `k` is the
continuation receiving the new previous character and the remaining
input.  Alternation prefers its left branch and `star` prefers to
consume, matching Python greedy backtracking order.  The fuel only
bounds recursion depth; `fuelFor` below always provides enough. -/
def reM {α : Type} (fuel : Nat) (r : RE) (prev : Option Char) (s : List Char)
    (k : Option Char → List Char → Option α) : Option α :=
  match fuel, r with
  | 0, _ => none
  | _ + 1, .eps => k prev s
  | _ + 1, .wb => if wordBoundary prev s then k prev s else none
  | _ + 1, .cls p =>
    match s with
    | [] => none
    | c :: rest => if p c then k (some c) rest else none
  | n + 1, .cat r1 r2 => reM n r1 prev s (fun p2 s2 => reM n r2 p2 s2 k)
  | n + 1, .alt r1 r2 =>
    match reM n r1 prev s k with
    | some x => some x
    | none => reM n r2 prev s k
  | n + 1, .star r1 =>
    match reM n r1 prev s (fun p2 s2 =>
        if s2.length < s.length then reM n (.star r1) p2 s2 k else none) with
    | some x => some x
    | none => k prev s

/-- Fuel sufficient for any backtracking path of `r` on `s`. -/
def fuelFor (r : RE) (s : List Char) : Nat :=
  (sizeRE r + 2) * (s.length + 2) + 100

/-- Try to match `r` at the current position; on success return the new
previous character and the remaining input of the first (Python-order)
accepted match. -/
def matchAt (r : RE) (prev : Option Char) (s : List Char) :
    Option (Option Char × List Char) :=
  reM (fuelFor r s) r prev s (fun p2 s2 => some (p2, s2))

/-- Scan for a match at every position, like `pattern.search`. -/
def searchAux (r : RE) : Option Char → List Char → Bool
  | prev, [] => (matchAt r prev []).isSome
  | prev, c :: rest => (matchAt r prev (c :: rest)).isSome || searchAux r (some c) rest

/-- `pattern.search(text) is not None`. -/
def reSearch (r : RE) (s : List Char) : Bool := searchAux r none s

/-- Leftmost non-overlapping scan collecting matched substrings, like
`pattern.findall` (full matches; see the header note on groups). -/
def findallAux (r : RE) : Nat → Option Char → List Char → List String
  | 0, _, _ => []
  | fuel + 1, prev, s =>
    match matchAt r prev s with
    | some (p2, s2) =>
      let n := s.length - s2.length
      if n = 0 then
        match s with
        | [] => [String.mk []]
        | c :: rest => String.mk [] :: findallAux r fuel (some c) rest
      else String.mk (s.take n) :: findallAux r fuel p2 s2
    | none =>
      match s with
      | [] => []
      | c :: rest => findallAux r fuel (some c) rest

/-- `pattern.findall(text)`. -/
def reFindall (r : RE) (s : List Char) : List String :=
  findallAux r (s.length + 1) none s

/-! ### Regular-expression constructors mirroring the `re` syntax -/

/-- A literal character. -/
def chr (c : Char) : RE := .cls (fun d => d = c)

/-- Concatenation of a list of expressions. -/
def cats (l : List RE) : RE := l.foldr RE.cat RE.eps

/-- A literal string. -/
def strRE (s : String) : RE := cats (s.data.map chr)

/-- Alternation `a|b|...` with Python left-first preference. -/
def alts : List RE → RE
  | [] => .cls (fun _ => false)
  | [r] => r
  | r :: rs => .alt r (alts rs)

/-- Greedy `r?`. -/
def opt (r : RE) : RE := .alt r .eps

/-- Greedy `r+`. -/
def plusRE (r : RE) : RE := .cat r (.star r)

/-- `r{n}`. -/
def repN (r : RE) : Nat → RE
  | 0 => .eps
  | n + 1 => .cat r (repN r n)

/-- Greedy `r{0,n}`. -/
def upToN (r : RE) : Nat → RE
  | 0 => .eps
  | n + 1 => .alt (.cat r (upToN r n)) .eps

/-- Greedy `r{lo,hi}`. -/
def repRange (r : RE) (lo hi : Nat) : RE := .cat (repN r lo) (upToN r (hi - lo))

/-- Greedy `r{n,}`. -/
def atLeast (r : RE) (n : Nat) : RE := .cat (repN r n) (.star r)

/-- Python `\d`. -/
def dg : RE := .cls (fun c => '0' ≤ c && c ≤ '9')

/-- Python `\s` (ASCII whitespace). -/
def isWs (c : Char) : Bool :=
  c = ' ' || c = '\t' || c = '\n' || c = '\x0b' || c = '\x0c' || c = '\r'

/-- The class `\s` as an expression. -/
def wsRE : RE := .cls isWs

/-- Python `.` (any character except newline). -/
def dotRE : RE := .cls (fun c => c != '\n')

/-! ### Pattern library (`self.sensitive_patterns`,
`self.verification_patterns`, `self.profanity_list`) -/

/-- `\b\d{3}[-]?\d{2}[-]?\d{4}\b` -/
def ssnRE : RE :=
  cats [.wb, repN dg 3, opt (chr '-'), repN dg 2, opt (chr '-'), repN dg 4, .wb]

/-- `[1-9]` -/
def d19 : RE := .cls (fun c => '1' ≤ c && c ≤ '9')

/-- `(0?[1-9]|1[0-2])` -/
def monthRE : RE :=
  .alt (.cat (opt (chr '0')) d19)
    (.cat (chr '1') (.cls (fun c => '0' ≤ c && c ≤ '2')))

/-- `(0?[1-9]|[12][0-9]|3[01])` -/
def dayRE : RE :=
  alts [.cat (opt (chr '0')) d19,
    .cat (.cls (fun c => c = '1' || c = '2')) dg,
    .cat (chr '3') (.cls (fun c => c = '0' || c = '1'))]

/-- `[\/\-]` -/
def dateSepRE : RE := .cls (fun c => c = '/' || c = '-')

/-- `\b(0?[1-9]|1[0-2])[\/\-](0?[1-9]|[12][0-9]|3[01])[\/\-](19|20)?\d{2}\b` -/
def dobRE : RE :=
  cats [.wb, monthRE, dateSepRE, dayRE, dateSepRE,
    opt (.alt (strRE "19") (strRE "20")), repN dg 2, .wb]

/-- `\baccount\s?(?:number|#|no)?\s?[:#]?\s?\d{4,}\b` -/
def accountRE : RE :=
  cats [.wb, strRE "account", opt wsRE,
    opt (alts [strRE "number", chr '#', strRE "no"]), opt wsRE,
    opt (.cls (fun c => c = ':' || c = '#')), opt wsRE, atLeast dg 4, .wb]

/-- `\b(?:balance|amount|owe|debt).{0,20}\$?\s?\d+(?:\.\d{2})?\b` -/
def balanceRE : RE :=
  cats [.wb, alts [strRE "balance", strRE "amount", strRE "owe", strRE "debt"],
    repRange dotRE 0 20, opt (chr '$'), opt wsRE, plusRE dg,
    opt (cats [chr '.', repN dg 2]), .wb]

/-- `[A-Za-z]` -/
def alphaRE : RE := .cls (fun c => ('a' ≤ c && c ≤ 'z') || ('A' ≤ c && c ≤ 'Z'))

/-- `[A-Z]` -/
def upperRE : RE := .cls (fun c => 'A' ≤ c && c ≤ 'Z')

/-- `([A-Za-z]+\s?)+` -/
def wordsRE : RE := plusRE (.cat (plusRE alphaRE) (opt wsRE))

/-- `\b\d+\s+([A-Za-z]+\s?)+,?\s*([A-Za-z]+\s?)+,?\s*[A-Z]{2}\s*\d{5}(-\d{4})?\b` -/
def addressRE : RE :=
  cats [.wb, plusRE dg, plusRE wsRE, wordsRE, opt (chr ','), .star wsRE,
    wordsRE, opt (chr ','), .star wsRE, repN upperRE 2, .star wsRE,
    repN dg 5, opt (cats [chr '-', repN dg 4]), .wb]

/-- `\b(?:\d{4}[ -]?){3}\d{4}\b` -/
def ccRE : RE :=
  cats [.wb,
    repN (.cat (repN dg 4) (opt (.cls (fun c => c = ' ' || c = '-')))) 3,
    repN dg 4, .wb]

/-- `[\s.-]` -/
def phoneSepRE : RE := .cls (fun c => isWs c || c = '.' || c = '-')

/-- `\b(\+\d{1,2}\s?)?\(?\d{3}\)?[\s.-]?\d{3}[\s.-]?\d{4}\b` -/
def phoneRE : RE :=
  cats [.wb, opt (cats [chr '+', repRange dg 1 2, opt wsRE]), opt (chr '('),
    repN dg 3, opt (chr ')'), opt phoneSepRE, repN dg 3, opt phoneSepRE,
    repN dg 4, .wb]

/-- `(?:verify|confirm|check)` -/
def verifyWordRE : RE := alts [strRE "verify", strRE "confirm", strRE "check"]

/-- `\b(?:date\s+of\s+birth|dob|birthday).{0,30}(?:verify|confirm|check)` -/
def dobVerifyRE : RE :=
  cats [.wb,
    alts [cats [strRE "date", plusRE wsRE, strRE "of", plusRE wsRE, strRE "birth"],
      strRE "dob", strRE "birthday"],
    repRange dotRE 0 30, verifyWordRE]

/-- `\b(?:address|residence).{0,30}(?:verify|confirm|check)` -/
def addressVerifyRE : RE :=
  cats [.wb, alts [strRE "address", strRE "residence"],
    repRange dotRE 0 30, verifyWordRE]

/-- `\b(?:ssn|social security|social).{0,30}(?:verify|confirm|check)` -/
def ssnVerifyRE : RE :=
  cats [.wb, alts [strRE "ssn", strRE "social security", strRE "social"],
    repRange dotRE 0 30, verifyWordRE]

/-- `self.sensitive_patterns`, in insertion order. -/
def sensitive_patterns : List (String × RE) :=
  [("SSN", ssnRE), ("DOB", dobRE), ("Account", accountRE),
   ("Balance", balanceRE), ("Address", addressRE), ("Credit Card", ccRE),
   ("Phone", phoneRE)]

/-- `self.verification_patterns`, in insertion order. -/
def verification_patterns : List (String × RE) :=
  [("DOB_verification", dobVerifyRE), ("Address_verification", addressVerifyRE),
   ("SSN_verification", ssnVerifyRE)]

/-- `self.profanity_list` (a Python set; only membership is used). -/
def profanity_list : List String :=
  ["damn", "hell", "shit", "fuck", "ass", "bitch", "crap", "piss",
   "dick", "bastard", "asshole", "bullshit", "cunt", "goddamn"]

/-! ### Detection functions -/

/-- Accumulator-based tokenizer computing `re.findall` of the pattern `\b\w+\b`:
the list of maximal runs of word characters, in order. -/
def wordTokAux : List Char → List Char → List String
  | acc, [] => if acc.isEmpty then [] else [String.mk acc.reverse]
  | acc, c :: rest =>
    if wordChar c then wordTokAux (c :: acc) rest
    else if acc.isEmpty then wordTokAux [] rest
    else String.mk acc.reverse :: wordTokAux [] rest

/-- `re.findall` of the pattern `\b\w+\b` over the text. -/
def wordTok (s : List Char) : List String := wordTokAux [] s

/-- `detect_profanity`: lowercase `str(text)`, tokenize into words, keep
the words that are in the profanity list. -/
def detect_profanity (text : PyVal) : List String :=
  let t := pyLower (pyStr text)
  (wordTok t.data).filter (fun w => profanity_list.contains w)

/-- `detect_sensitive_info`: lowercase `str(text)`, build the dict of
`findall` results for every pattern whose `search` succeeds; `None` when
that dict is empty. -/
def detect_sensitive_info (text : PyVal) : Option (List (String × List String)) :=
  let t := (pyLower (pyStr text)).data
  let violations :=
    sensitive_patterns.filterMap
      (fun lp => if reSearch lp.2 t then some (lp.1, reFindall lp.2 t) else none)
  if violations.isEmpty then none else some violations

/-! ### Association-list dict operations -/

/-- Python `d.get(key, default)` on an insertion-ordered dict. -/
def lookupDefault {α : Type} : List (String × α) → String → α → α
  | [], _, d => d
  | kv :: rest, key, d => if kv.1 = key then kv.2 else lookupDefault rest key d

/-- Python `d[key]` as an `Option`, for stating which keys a dict has. -/
def dictLookup {α : Type} : List (String × α) → String → Option α
  | [], _ => none
  | kv :: rest, key => if kv.1 = key then some kv.2 else dictLookup rest key

/-! ### `detect_verification` (Compliance Correlator) -/

/-- `verification_done[key] = True`. -/
def setTrue (st : List (String × Bool)) (key : String) : List (String × Bool) :=
  st.map (fun kb => if kb.1 = key then (kb.1, true) else kb)

/-- The inner loop of `detect_verification`: for every verification
pattern whose `search` succeeds on the (already lowercased) text, set
its flag. -/
def updVerification (st : List (String × Bool)) (t : List Char) : List (String × Bool) :=
  verification_patterns.foldl
    (fun acc kp => if reSearch kp.2 t then setTrue acc kp.1 else acc) st

/-- `{key: False for key in self.verification_patterns.keys()}`. -/
def initVerification : List (String × Bool) :=
  verification_patterns.map (fun kp => (kp.1, false))

/-- The utterance loop of `detect_verification`.  For an Agent
utterance, `entry["text"]` raises `KeyError` when the key is absent and
`.lower()` raises `AttributeError` when the value is not a string. -/
def detect_verification_go :
    List (String × Bool) → List Utterance → Except PyError (List (String × Bool))
  | st, [] => .ok st
  | st, e :: rest =>
    if pyLower e.speaker = "agent" then
      match e.text with
      | none => .error (.keyError "text")
      | some .VNone => .error (.attributeError "lower")
      | some (.VStr s) => detect_verification_go (updVerification st (pyLower s).data) rest
    else detect_verification_go st rest

/-- `detect_verification`: returns the full final verification state. -/
def detect_verification (conversation : List Utterance) :
    Except PyError (List (String × Bool)) :=
  detect_verification_go initVerification conversation

/-! ### `analyze_silence_overtalk` (Timing Analyzer) -/

/-- `min(entry["stime"] for entry in conversation)` (0 on the empty
list, which no caller reaches: `analyze_silence_overtalk` returns early
and `analyze_call` raises first). -/
def minStimes : List Utterance → ℚ
  | [] => 0
  | e :: rest => rest.foldl (fun m x => min m x.stime) e.stime

/-- `max(entry["etime"] for entry in conversation)` (same convention). -/
def maxEtimes : List Utterance → ℚ
  | [] => 0
  | e :: rest => rest.foldl (fun m x => max m x.etime) e.etime

/-- Stable insertion keeping `x` before existing elements it does not
strictly exceed. -/
def stableInsert {α : Type} (lt : α → α → Bool) (x : α) : List α → List α
  | [] => [x]
  | y :: ys => if lt y x then y :: stableInsert lt x ys else x :: y :: ys

/-- Stable ascending sort, the ordering semantics of Python `sorted` /
`list.sort` (elements comparing equal keep their original order). -/
def stableSort {α : Type} (lt : α → α → Bool) : List α → List α
  | [] => []
  | x :: xs => stableInsert lt x (stableSort lt xs)

/-- The silence sweep: fold over the utterances sorted by start time,
accumulating gaps where `stime > last_end` and updating
`last_end = max(last_end, etime)`. -/
def silenceSweep (firstTime : ℚ) (sortedConv : List Utterance) : ℚ :=
  (sortedConv.foldl
    (fun acc e =>
      (if e.stime > acc.2 then acc.1 + (e.stime - acc.2) else acc.1,
       max acc.2 e.etime))
    ((0 : ℚ), firstTime)).1

/-- The event list `[(stime, 1), (etime, -1), ...]` in utterance order. -/
def overtalkEvents (conversation : List Utterance) : List (ℚ × Int) :=
  conversation.foldr (fun e acc => (e.stime, (1 : Int)) :: (e.etime, (-1 : Int)) :: acc) []

/-- The overtalk sweep over the sorted events: state is
`(concurrent_speakers, (overtalk_duration, prev_time))`; before applying
a delta, accumulate `time - prev_time` whenever more than one speaker is
active. -/
def overtalkSweep (firstTime : ℚ) (events : List (ℚ × Int)) : ℚ :=
  (events.foldl
    (fun acc ev =>
      (acc.1 + ev.2,
       ((if acc.1 > 1 then acc.2.1 + (ev.1 - acc.2.2) else acc.2.1), ev.1)))
    ((0 : Int), ((0 : ℚ), firstTime))).2.1

/-- `analyze_silence_overtalk`: the returned metrics dict.  In the empty
and degenerate (`total_duration <= 0`) cases the dict has only the two
keys the code puts in it. -/
def analyze_silence_overtalk (conversation : List Utterance) : List (String × ℚ) :=
  if conversation.isEmpty then [("silence_pct", 0), ("overtalk_pct", 0)]
  else
    let first_time := minStimes conversation
    let last_time := maxEtimes conversation
    let total_duration := last_time - first_time
    if total_duration ≤ 0 then [("silence_pct", 0), ("overtalk_pct", 0)]
    else
      let sortedConv := stableSort (fun a b => decide (a.stime < b.stime)) conversation
      let silence_duration := silenceSweep first_time sortedConv
      let events := stableSort
        (fun a b => decide (a.1 < b.1 ∨ (a.1 = b.1 ∧ a.2 < b.2)))
        (overtalkEvents conversation)
      let overtalk_duration := overtalkSweep first_time events
      [("total_call_duration", total_duration),
       ("silence_duration", silence_duration),
       ("silence_pct", silence_duration / total_duration * 100),
       ("overtalk_duration", overtalk_duration),
       ("overtalk_pct", overtalk_duration / total_duration * 100)]

/-- `analyze_silence_overtalk` with the list owned by the caller threaded through
as explicit state: the second component is what the sequence object of the caller holds after the call.  The code reads the sequence and builds a
fresh sorted copy with the non-mutating builtin `sorted`, so the
returned state is the unchanged input (an in-place `list.sort` would
instead return the reordered list here). -/
def analyze_silence_overtalk_st (conversation : List Utterance) :
    List (String × ℚ) × List Utterance :=
  if conversation.isEmpty then ([("silence_pct", 0), ("overtalk_pct", 0)], conversation)
  else
    let first_time := minStimes conversation
    let last_time := maxEtimes conversation
    let total_duration := last_time - first_time
    if total_duration ≤ 0 then ([("silence_pct", 0), ("overtalk_pct", 0)], conversation)
    else
      let sortedConv := stableSort (fun a b => decide (a.stime < b.stime)) conversation
      let silence_duration := silenceSweep first_time sortedConv
      let events := stableSort
        (fun a b => decide (a.1 < b.1 ∨ (a.1 = b.1 ∧ a.2 < b.2)))
        (overtalkEvents conversation)
      let overtalk_duration := overtalkSweep first_time events
      ([("total_call_duration", total_duration),
        ("silence_duration", silence_duration),
        ("silence_pct", silence_duration / total_duration * 100),
        ("overtalk_duration", overtalk_duration),
        ("overtalk_pct", overtalk_duration / total_duration * 100)],
       conversation)

/-! ### `analyze_call` (Conversation Analyzer) -/

/-- One recorded profanity hit: the original text and the matched
profane tokens. -/
structure ProfEntry where
  text : String
  profanity : List String
deriving DecidableEq

/-- One violation record: source text, matched sensitive values, and the
label reported as missing verification. -/
structure Violation where
  text : String
  sensitive_info : List String
  missing_verification : String
deriving DecidableEq

/-- The aggregate result dict built by `analyze_call`. -/
structure CallResult where
  call_id : String
  profanity_agent : List ProfEntry
  profanity_customer : List ProfEntry
  verification_done : Bool
  sensitive_info_shared : Bool
  violations : List Violation
  call_metrics : List (String × ℚ)
  total_duration : ℚ
deriving DecidableEq

/-- `result["profanity"][speaker].append({...})`: the profanity dict has
exactly the keys "agent" and "customer", so any other speaker string
raises `KeyError`. -/
def recordProfanity (r : CallResult) (speaker text : String) (prof : List String) :
    Except PyError CallResult :=
  if speaker = "agent" then
    .ok { r with profanity_agent := r.profanity_agent ++ [⟨text, prof⟩] }
  else if speaker = "customer" then
    .ok { r with profanity_customer := r.profanity_customer ++ [⟨text, prof⟩] }
  else .error (.keyError speaker)

/-- The violation loop: for each detected label, append a violation
unless `verification_state.get(f"{key}_verification", False)` is true. -/
def addViolations (vs : List (String × Bool)) (r : CallResult) (text : String)
    (sens : List (String × List String)) : CallResult :=
  sens.foldl
    (fun acc kd =>
      if lookupDefault vs (kd.1 ++ "_verification") false then acc
      else { acc with violations := acc.violations ++ [⟨text, kd.2, kd.1⟩] })
    r

/-- The agent-only sensitive-info branch of the utterance loop. -/
def senseBranch (vs : List (String × Bool)) (r : CallResult) (s : String) : CallResult :=
  match detect_sensitive_info (.VStr s) with
  | none => r
  | some sens => addViolations vs { r with sensitive_info_shared := true } s sens

/-- One iteration of the utterance loop of `analyze_call`:
`entry["text"]` raises `KeyError` when absent; non-string text fails the
`isinstance` guard and is skipped; profanity hits are recorded under the
lowercased speaker key; for the agent, sensitive info is detected and
violations appended. -/
def analyzeStep (vs : List (String × Bool)) (r : CallResult) (e : Utterance) :
    Except PyError CallResult :=
  match e.text with
  | none => .error (.keyError "text")
  | some .VNone => .ok r
  | some (.VStr s) =>
    let speaker := pyLower e.speaker
    let prof := detect_profanity (.VStr s)
    match (if prof.isEmpty then .ok r else recordProfanity r speaker s prof :
        Except PyError CallResult) with
    | .error err => .error err
    | .ok r1 => .ok (if speaker = "agent" then senseBranch vs r1 s else r1)

/-- The utterance loop of `analyze_call`. -/
def analyzeLoop (vs : List (String × Bool)) :
    CallResult → List Utterance → Except PyError CallResult
  | r, [] => .ok r
  | r, e :: rest =>
    match analyzeStep vs r e with
    | .error err => .error err
    | .ok r1 => analyzeLoop vs r1 rest

/-- The result dict as first created by `analyze_call` (lines 118-128):
empty profanity lists, `verification_done` as the disjunction of the
verification-state values, no violations yet, the timing metrics, and
`total_duration = max(etimes) - min(stimes)`. -/
def initResult (call_id : String) (conversation : List Utterance)
    (verification_state : List (String × Bool)) : CallResult :=
  { call_id := call_id
    profanity_agent := []
    profanity_customer := []
    verification_done := verification_state.any (fun kb => kb.2)
    sensitive_info_shared := false
    violations := []
    call_metrics := analyze_silence_overtalk conversation
    total_duration := maxEtimes conversation - minStimes conversation }

/-- `analyze_call`: on an empty conversation the very first statement,
`min(...)` over an empty generator, raises `ValueError`; otherwise the
verification state is computed once, the result dict is created with the
timing metrics, and the utterance loop runs. -/
def analyze_call (conversation : List Utterance) (call_id : String) :
    Except PyError CallResult :=
  match conversation with
  | [] => .error (.valueError "min() arg is an empty sequence")
  | e :: rest =>
    match detect_verification (e :: rest) with
    | .error err => .error err
    | .ok verification_state =>
      analyzeLoop verification_state
        (initResult call_id (e :: rest) verification_state) (e :: rest)

/-! ### Accessors and claim-side definitions -/

/-- Whether an analyzer call returned normally (no exception). -/
def exceptOk {α : Type} : Except PyError α → Bool
  | .ok _ => true
  | .error _ => false

/-- The `missing_verification` labels of the violations of a result
(empty when the call raised). -/
def violationLabels : Except PyError CallResult → List String
  | .ok r => r.violations.map (fun v => v.missing_verification)
  | .error _ => []

/-- The `sensitive_info_shared` flag of a result (false when the call
raised). -/
def sharedFlag : Except PyError CallResult → Bool
  | .ok r => r.sensitive_info_shared
  | .error _ => false

/-- The `verification_done` flag of a result (false when the call
raised). -/
def verificationDoneOf : Except PyError CallResult → Bool
  | .ok r => r.verification_done
  | .error _ => false

/-- The final end-of-conversation verification flag for a state key. -/
def finalVerifFlag (conversation : List Utterance) (key : String) : Bool :=
  match detect_verification conversation with
  | .ok st => lookupDefault st key false
  | .error _ => false

/-- The labels of the sensitive-info dict detected in a string text. -/
def sensKeys (s : String) : List String :=
  match detect_sensitive_info (.VStr s) with
  | none => []
  | some sens => sens.map Prod.fst

/-- Whether an utterance is an agent disclosure of the given label. -/
def agentDiscloses (e : Utterance) (key : String) : Bool :=
  match e.text with
  | some (.VStr s) =>
    if pyLower e.speaker = "agent" then decide (key ∈ sensKeys s) else false
  | _ => false

/-- Whether some utterance of the conversation is an agent disclosure of
the given label. -/
def disclosedByAgent (conversation : List Utterance) (key : String) : Bool :=
  conversation.any (fun e => agentDiscloses e key)

/-- The violation labels of a result record. -/
def labelsOf (r : CallResult) : List String :=
  r.violations.map (fun v => v.missing_verification)

/-- The labels of the detected sensitive entries whose
`f"{key}_verification"` lookup in the verification state defaults to
false, i.e. the labels the violation loop appends. -/
def addedLabels (vs : List (String × Bool)) (sens : List (String × List String)) :
    List String :=
  (sens.filter (fun kd => !(lookupDefault vs (kd.1 ++ "_verification") false))).map Prod.fst

/-- Whether `detect_sensitive_info` fires on a string text. -/
def sFlag (s : String) : Bool := (detect_sensitive_info (.VStr s)).isSome

/-- The violation labels contributed by one agent string text. -/
def sLabels (vs : List (String × Bool)) (s : String) : List String :=
  match detect_sensitive_info (.VStr s) with
  | none => []
  | some sens => addedLabels vs sens

/-- The violation labels contributed by one utterance of the loop. -/
def stepLabels (vs : List (String × Bool)) (e : Utterance) : List String :=
  match e.text with
  | some (.VStr s) => if pyLower e.speaker = "agent" then sLabels vs s else []
  | _ => []

/-- Whether one utterance of the loop sets `sensitive_info_shared`. -/
def stepShared (e : Utterance) : Bool :=
  match e.text with
  | some (.VStr s) => if pyLower e.speaker = "agent" then sFlag s else false
  | _ => false

/-- The violation labels contributed by a whole conversation. -/
def loopLabels (vs : List (String × Bool)) : List Utterance → List String
  | [] => []
  | e :: rest => stepLabels vs e ++ loopLabels vs rest

/-- Modelled from the spec: "reported as a structured Input error
identifying the conversation/call id" — a structured Input error is a
distinguished error value describing the bad input, as opposed to an
uncaught exception escaping from library code.  The script never
constructs such a value. -/
def isStructuredInputError : Except PyError CallResult → Bool
  | .error (.inputError _) => true
  | _ => false

/-! ### Concrete conversations used by the claim theorems -/

/-- One agent utterance disclosing a Balance match, a label with no
mapped verification category. -/
def convC1 : List Utterance := [⟨"Agent", some (.VStr "your balance is 50"), 0, 4⟩]

/-- The spec scenario for the DOB verification phrase: the confirm word
comes before the category keyword. -/
def convC2 : List Utterance :=
  [⟨"Agent", some (.VStr "can you confirm your date of birth"), 0, 3⟩,
   ⟨"Agent", some (.VStr "your date of birth is 01/02/1990"), 4, 7⟩]

/-- Same scenario with a phrase the pattern of the code does match: the
category keyword followed by the confirm word within thirty characters. -/
def convC2A : List Utterance :=
  [⟨"Agent", some (.VStr "your date of birth is what i will confirm"), 0, 3⟩,
   ⟨"Agent", some (.VStr "your date of birth is 01/02/1990"), 4, 7⟩]

/-- A degenerate conversation with `total_duration = 0`. -/
def convC3 : List Utterance := [⟨"Agent", some (.VStr "hi"), 5, 5⟩]

/-- A conversation whose only sensitive content is one agent SSN
disclosure, with no SSN verification phrase. -/
def convC7 : List Utterance :=
  [⟨"Customer", some (.VStr "hello"), 0, 1⟩,
   ⟨"Agent", some (.VStr "my social security number is 123-45-6789"), 1, 5⟩]

/-- Two utterances with intervals `[0,10)` and `[3,6)`, the second fully
nested in the first. -/
def convC8 : List Utterance :=
  [⟨"Agent", some (.VStr "a"), 0, 10⟩, ⟨"Customer", some (.VStr "b"), 3, 6⟩]

/-- An SSN verification phrase followed by an SSN disclosure. -/
def convC6W : List Utterance :=
  [⟨"Agent", some (.VStr "your ssn i will verify"), 0, 2⟩,
   ⟨"Agent", some (.VStr "it is 123-45-6789"), 3, 5⟩]

/-! ### Dictionary-key lemmas -/

theorem lookupDefault_not_mem {α : Type} (l : List (String × α)) (k : String) (d : α)
    (h : k ∉ l.map Prod.fst) : lookupDefault l k d = d := by
  induction l with
  | nil => rfl
  | cons kv rest ih =>
    simp only [List.map_cons, List.mem_cons, not_or] at h
    simp only [lookupDefault]
    rw [if_neg (fun hh => h.1 hh.symm), ih h.2]

theorem setTrue_keys (st : List (String × Bool)) (key : String) :
    (setTrue st key).map Prod.fst = st.map Prod.fst := by
  induction st with
  | nil => rfl
  | cons kv rest ih =>
    simp only [setTrue, List.map_cons] at ih ⊢
    by_cases h : kv.1 = key <;> simp [h, ih]

theorem updVerification_keys (st : List (String × Bool)) (t : List Char) :
    (updVerification st t).map Prod.fst = st.map Prod.fst := by
  unfold updVerification
  generalize verification_patterns = pats
  induction pats generalizing st with
  | nil => rfl
  | cons kp rest ih =>
    simp only [List.foldl_cons]
    rw [ih]
    by_cases h : reSearch kp.2 t
    · rw [if_pos h, setTrue_keys]
    · rw [if_neg h]

theorem detect_verification_go_keys (conv : List Utterance) :
    ∀ st st', detect_verification_go st conv = .ok st' →
      st'.map Prod.fst = st.map Prod.fst := by
  induction conv with
  | nil =>
    intro st st' h
    injection h with h
    rw [h]
  | cons e rest ih =>
    intro st st' h
    unfold detect_verification_go at h
    by_cases hsp : pyLower e.speaker = "agent"
    · rw [if_pos hsp] at h
      cases ht : e.text with
      | none => rw [ht] at h; exact Except.noConfusion h
      | some v =>
        cases v with
        | VNone => rw [ht] at h; exact Except.noConfusion h
        | VStr s =>
          rw [ht] at h
          rw [ih _ _ h, updVerification_keys]
    · rw [if_neg hsp] at h
      exact ih _ _ h

theorem detect_verification_keys (conv : List Utterance) (st : List (String × Bool))
    (h : detect_verification conv = .ok st) :
    st.map Prod.fst = ["DOB_verification", "Address_verification", "SSN_verification"] :=
  (detect_verification_go_keys conv _ _ h).trans rfl

/-! ### Characterization of the utterance loop -/

theorem addViolations_spec (vs : List (String × Bool)) (text : String) :
    ∀ (sens : List (String × List String)) (r : CallResult),
      labelsOf (addViolations vs r text sens) = labelsOf r ++ addedLabels vs sens ∧
      (addViolations vs r text sens).sensitive_info_shared = r.sensitive_info_shared := by
  intro sens
  induction sens with
  | nil => intro r; simp [addViolations, addedLabels]
  | cons kd tl ih =>
    intro r
    by_cases h : lookupDefault vs (kd.1 ++ "_verification") false
    · have heq : addViolations vs r text (kd :: tl) = addViolations vs r text tl := by
        simp only [addViolations, List.foldl_cons, if_pos h]
      have hadd : addedLabels vs (kd :: tl) = addedLabels vs tl := by
        simp only [addedLabels, List.filter_cons, h]
        rfl
      rw [heq, hadd]
      exact ih r
    · have heq : addViolations vs r text (kd :: tl) =
          addViolations vs { r with violations := r.violations ++ [⟨text, kd.2, kd.1⟩] } text tl := by
        simp only [addViolations, List.foldl_cons, if_neg h]
      have hadd : addedLabels vs (kd :: tl) = kd.1 :: addedLabels vs tl := by
        simp only [addedLabels, List.filter_cons, Bool.not_eq_true' (b := lookupDefault vs (kd.1 ++ "_verification") false)]
        rw [if_pos (by simpa using h)]
        rfl
      rw [heq, hadd]
      obtain ⟨ih1, ih2⟩ := ih { r with violations := r.violations ++ [⟨text, kd.2, kd.1⟩] }
      refine ⟨?_, ih2⟩
      rw [ih1]
      simp [labelsOf]

theorem senseBranch_spec (vs : List (String × Bool)) (r : CallResult) (s : String) :
    labelsOf (senseBranch vs r s) = labelsOf r ++ sLabels vs s ∧
    (senseBranch vs r s).sensitive_info_shared = (r.sensitive_info_shared || sFlag s) := by
  unfold senseBranch sLabels sFlag
  cases h : detect_sensitive_info (.VStr s) with
  | none => simp
  | some sens =>
    obtain ⟨h1, h2⟩ := addViolations_spec vs s sens { r with sensitive_info_shared := true }
    rw [h1, h2]
    exact ⟨rfl, by simp⟩

theorem recordProfanity_ok (r : CallResult) (sp t : String) (p : List String)
    (r' : CallResult) (h : recordProfanity r sp t p = .ok r') :
    labelsOf r' = labelsOf r ∧ r'.sensitive_info_shared = r.sensitive_info_shared := by
  unfold recordProfanity at h
  by_cases h1 : sp = "agent"
  · rw [if_pos h1] at h
    injection h with h
    rw [← h]
    exact ⟨rfl, rfl⟩
  · rw [if_neg h1] at h
    by_cases h2 : sp = "customer"
    · rw [if_pos h2] at h
      injection h with h
      rw [← h]
      exact ⟨rfl, rfl⟩
    · rw [if_neg h2] at h
      exact Except.noConfusion h

theorem recordProfanity_err (r : CallResult) (sp t : String) (p : List String)
    (er : PyError) (h : recordProfanity r sp t p = .error er) :
    er = .keyError sp ∧ sp ≠ "agent" ∧ sp ≠ "customer" := by
  unfold recordProfanity at h
  by_cases h1 : sp = "agent"
  · rw [if_pos h1] at h; exact Except.noConfusion h
  · rw [if_neg h1] at h
    by_cases h2 : sp = "customer"
    · rw [if_pos h2] at h; exact Except.noConfusion h
    · rw [if_neg h2] at h
      injection h with h
      exact ⟨h.symm, h1, h2⟩

theorem analyzeStep_ok (vs : List (String × Bool)) (r : CallResult) (e : Utterance)
    (r' : CallResult) (h : analyzeStep vs r e = .ok r') :
    labelsOf r' = labelsOf r ++ stepLabels vs e ∧
    r'.sensitive_info_shared = (r.sensitive_info_shared || stepShared e) := by
  unfold analyzeStep at h
  cases ht : e.text with
  | none =>
    rw [ht] at h
    exact Except.noConfusion h
  | some v =>
    cases v with
    | VNone =>
      rw [ht] at h
      injection h with h
      rw [← h]
      simp [stepLabels, stepShared, ht]
    | VStr s =>
      rw [ht] at h
      simp only at h
      have hrec : ∀ r1 : CallResult,
          (if pyLower e.speaker = "agent" then senseBranch vs r1 s else r1) = r' →
          labelsOf r1 = labelsOf r →
          r1.sensitive_info_shared = r.sensitive_info_shared →
          labelsOf r' = labelsOf r ++ stepLabels vs e ∧
          r'.sensitive_info_shared = (r.sensitive_info_shared || stepShared e) := by
        intro r1 hif hl hs
        by_cases hsp : pyLower e.speaker = "agent"
        · rw [if_pos hsp] at hif
          obtain ⟨sb1, sb2⟩ := senseBranch_spec vs r1 s
          rw [← hif]
          simp only [stepLabels, stepShared, ht, if_pos hsp]
          exact ⟨by rw [sb1, hl], by rw [sb2, hs]⟩
        · rw [if_neg hsp] at hif
          rw [← hif]
          simp only [stepLabels, stepShared, ht, if_neg hsp]
          exact ⟨by rw [hl, List.append_nil], by rw [hs, Bool.or_false]⟩
      by_cases hp : (detect_profanity (.VStr s)).isEmpty
      · rw [if_pos hp] at h
        injection h with h
        exact hrec r h rfl rfl
      · rw [if_neg hp] at h
        cases hrp : recordProfanity r (pyLower e.speaker) s (detect_profanity (.VStr s)) with
        | error er =>
          rw [hrp] at h
          exact Except.noConfusion h
        | ok r1 =>
          rw [hrp] at h
          injection h with h
          obtain ⟨p1, p2⟩ := recordProfanity_ok r _ s _ r1 hrp
          exact hrec r1 h p1 p2

theorem analyzeLoop_ok (vs : List (String × Bool)) :
    ∀ (conv : List Utterance) (r r' : CallResult),
      analyzeLoop vs r conv = .ok r' →
      labelsOf r' = labelsOf r ++ loopLabels vs conv ∧
      r'.sensitive_info_shared = (r.sensitive_info_shared || conv.any stepShared) := by
  intro conv
  induction conv with
  | nil =>
    intro r r' h
    injection h with h
    rw [← h]
    simp [loopLabels]
  | cons e rest ih =>
    intro r r' h
    unfold analyzeLoop at h
    cases hs : analyzeStep vs r e with
    | error er =>
      rw [hs] at h
      exact Except.noConfusion h
    | ok r1 =>
      rw [hs] at h
      obtain ⟨l1, s1⟩ := analyzeStep_ok vs r e r1 hs
      obtain ⟨l2, s2⟩ := ih r1 r' h
      constructor
      · rw [l2, l1, loopLabels, List.append_assoc]
      · rw [s2, s1, List.any_cons, Bool.or_assoc]

/-! ### Membership in the contributed labels -/

theorem mem_addedLabels (vs : List (String × Bool)) (sens : List (String × List String))
    (key : String) :
    key ∈ addedLabels vs sens ↔
      key ∈ sens.map Prod.fst ∧
      lookupDefault vs (key ++ "_verification") false = false := by
  unfold addedLabels
  simp only [List.mem_map, List.mem_filter, Bool.not_eq_true']
  constructor
  · rintro ⟨kd, ⟨hmem, hcond⟩, hkey⟩
    subst hkey
    exact ⟨⟨kd, hmem, rfl⟩, hcond⟩
  · rintro ⟨⟨kd, hmem, hkey⟩, hlook⟩
    subst hkey
    exact ⟨kd, ⟨hmem, hlook⟩, rfl⟩

theorem mem_sLabels (vs : List (String × Bool)) (s : String) (key : String) :
    key ∈ sLabels vs s ↔
      key ∈ sensKeys s ∧
      lookupDefault vs (key ++ "_verification") false = false := by
  unfold sLabels sensKeys
  cases h : detect_sensitive_info (.VStr s) with
  | none => simp
  | some sens => exact mem_addedLabels vs sens key

theorem mem_stepLabels (vs : List (String × Bool)) (e : Utterance) (key : String) :
    key ∈ stepLabels vs e ↔
      agentDiscloses e key = true ∧
      lookupDefault vs (key ++ "_verification") false = false := by
  unfold stepLabels agentDiscloses
  cases ht : e.text with
  | none => simp
  | some v =>
    cases v with
    | VNone => simp
    | VStr s =>
      by_cases hsp : pyLower e.speaker = "agent"
      · simp [hsp, mem_sLabels]
      · simp [hsp]

theorem mem_loopLabels (vs : List (String × Bool)) (key : String) :
    ∀ conv : List Utterance,
      key ∈ loopLabels vs conv ↔
        disclosedByAgent conv key = true ∧
        lookupDefault vs (key ++ "_verification") false = false := by
  intro conv
  induction conv with
  | nil => simp [loopLabels, disclosedByAgent]
  | cons e rest ih =>
    simp only [loopLabels, List.mem_append, mem_stepLabels, ih,
      disclosedByAgent, List.any_cons, Bool.or_eq_true]
    tauto

theorem stepShared_of_discloses (e : Utterance) (key : String)
    (h : agentDiscloses e key = true) : stepShared e = true := by
  unfold agentDiscloses at h
  unfold stepShared
  cases ht : e.text with
  | none => rw [ht] at h; exact Bool.noConfusion h
  | some v =>
    cases v with
    | VNone => rw [ht] at h; exact Bool.noConfusion h
    | VStr s =>
      rw [ht] at h
      by_cases hsp : pyLower e.speaker = "agent"
      · simp only [hsp, if_true] at h ⊢
        unfold sFlag
        unfold sensKeys at h
        cases hd : detect_sensitive_info (.VStr s) with
        | none => rw [hd] at h; simp at h
        | some sens => rfl
      · simp [hsp] at h

theorem any_stepShared_of_disclosed (conv : List Utterance) (key : String)
    (h : disclosedByAgent conv key = true) : conv.any stepShared = true := by
  unfold disclosedByAgent at h
  rw [List.any_eq_true] at h ⊢
  obtain ⟨e, he, ha⟩ := h
  exact ⟨e, he, stepShared_of_discloses e key ha⟩

/-! ### Unpacking a successful `analyze_call` -/

theorem analyze_call_ok_elim (conv : List Utterance) (cid : String)
    (hok : exceptOk (analyze_call conv cid) = true) :
    ∃ (st : List (String × Bool)) (r' : CallResult),
      detect_verification conv = .ok st ∧
      analyze_call conv cid = .ok r' ∧
      labelsOf r' = loopLabels st conv ∧
      r'.sensitive_info_shared = conv.any stepShared := by
  cases conv with
  | nil => simp [analyze_call, exceptOk] at hok
  | cons e rest =>
    cases hdv : detect_verification (e :: rest) with
    | error er =>
      have : analyze_call (e :: rest) cid = .error er := by
        show (match detect_verification (e :: rest) with
          | .error err => (.error err : Except PyError CallResult)
          | .ok vs => analyzeLoop vs (initResult cid (e :: rest) vs) (e :: rest)) =
          .error er
        rw [hdv]
      rw [this] at hok
      simp [exceptOk] at hok
    | ok st =>
      have hred : analyze_call (e :: rest) cid =
          analyzeLoop st (initResult cid (e :: rest) st) (e :: rest) := by
        show (match detect_verification (e :: rest) with
          | .error err => (.error err : Except PyError CallResult)
          | .ok vs => analyzeLoop vs (initResult cid (e :: rest) vs) (e :: rest)) =
          analyzeLoop st (initResult cid (e :: rest) st) (e :: rest)
        rw [hdv]
      cases hloop : analyzeLoop st (initResult cid (e :: rest) st) (e :: rest) with
      | error er =>
        rw [hred, hloop] at hok
        simp [exceptOk] at hok
      | ok r' =>
        obtain ⟨hl, hs⟩ := analyzeLoop_ok st (e :: rest) (initResult cid (e :: rest) st) r' hloop
        refine ⟨st, r', rfl, hred.trans hloop, ?_, ?_⟩
        · rw [hl]
          rfl
        · rw [hs]
          rfl

/-! ### Which exceptions each stage can raise -/

theorem detect_verification_go_err_shape (conv : List Utterance) :
    ∀ st er, detect_verification_go st conv = .error er →
      er = .keyError "text" ∨ er = .attributeError "lower" := by
  induction conv with
  | nil => intro st er h; exact Except.noConfusion h
  | cons e rest ih =>
    intro st er h
    unfold detect_verification_go at h
    by_cases hsp : pyLower e.speaker = "agent"
    · rw [if_pos hsp] at h
      cases ht : e.text with
      | none =>
        rw [ht] at h
        injection h with h
        exact Or.inl h.symm
      | some v =>
        cases v with
        | VNone =>
          rw [ht] at h
          injection h with h
          exact Or.inr h.symm
        | VStr s =>
          rw [ht] at h
          exact ih _ _ h
    · rw [if_neg hsp] at h
      exact ih _ _ h

theorem analyzeStep_err_shape (vs : List (String × Bool)) (r : CallResult)
    (e : Utterance) (er : PyError) (h : analyzeStep vs r e = .error er) :
    er = .keyError "text" ∨
      (er = .keyError (pyLower e.speaker) ∧ pyLower e.speaker ≠ "agent" ∧
       pyLower e.speaker ≠ "customer") := by
  unfold analyzeStep at h
  cases ht : e.text with
  | none =>
    rw [ht] at h
    injection h with h
    exact Or.inl h.symm
  | some v =>
    cases v with
    | VNone =>
      rw [ht] at h
      exact Except.noConfusion h
    | VStr s =>
      rw [ht] at h
      simp only at h
      by_cases hp : (detect_profanity (.VStr s)).isEmpty
      · rw [if_pos hp] at h
        exact Except.noConfusion h
      · rw [if_neg hp] at h
        cases hrp : recordProfanity r (pyLower e.speaker) s (detect_profanity (.VStr s)) with
        | error er2 =>
          rw [hrp] at h
          injection h with h
          obtain ⟨h1, h2, h3⟩ := recordProfanity_err r _ s _ er2 hrp
          exact Or.inr ⟨h ▸ h1, h2, h3⟩
        | ok r1 =>
          rw [hrp] at h
          exact Except.noConfusion h

theorem analyzeLoop_err_key (vs : List (String × Bool)) :
    ∀ (conv : List Utterance) (r : CallResult) (k : String),
      (∀ e ∈ conv, pyLower e.speaker = "agent" ∨ pyLower e.speaker = "customer") →
      analyzeLoop vs r conv = .error (.keyError k) → k = "text" := by
  intro conv
  induction conv with
  | nil => intro r k _ h; exact Except.noConfusion h
  | cons e rest ih =>
    intro r k hsp h
    unfold analyzeLoop at h
    cases hs : analyzeStep vs r e with
    | error er =>
      rw [hs] at h
      injection h with h
      subst h
      rcases analyzeStep_err_shape vs r e _ hs with h1 | ⟨h1, h2, h3⟩
      · injection h1
      · rcases hsp e (List.mem_cons_self e rest) with ha | hc
        · exact absurd ha h2
        · exact absurd hc h3
    | ok r1 =>
      rw [hs] at h
      exact ih r1 k (fun u hu => hsp u (List.mem_cons_of_mem e hu)) h

/-! ### Claim theorems -/

/-- C1, counterexample: the claim says a disclosed label with no mapped
verification category (here Balance) is recorded as disclosed but never
produces a Violation entry.  On `convC1` the code records the disclosure
AND appends a violation whose `missing_verification` is "Balance",
because `verification_state.get("Balance_verification", False)` defaults
to false. -/
theorem claim_C1_counterexample :
    sharedFlag (analyze_call convC1 "c1") = true ∧
    violationLabels (analyze_call convC1 "c1") = ["Balance"] := by decide

/-- C1, amended: for every conversation analyzed without an exception,
an agent disclosure of a label whose `f"{key}_verification"` name is not
a key of the verification state (i.e. a label with no mapped
verification category: Account, Balance, Credit Card, Phone) sets
`sensitive_info_shared` AND always produces a Violation entry for that
label, since the missing lookup defaults to not-verified; unmapped
labels therefore do participate in violation detection. -/
theorem claim_C1_amended (conv : List Utterance) (cid key : String)
    (hok : exceptOk (analyze_call conv cid) = true)
    (hunmapped : (key ++ "_verification") ∉
      ["DOB_verification", "Address_verification", "SSN_verification"])
    (hdisc : disclosedByAgent conv key = true) :
    sharedFlag (analyze_call conv cid) = true ∧
    key ∈ violationLabels (analyze_call conv cid) := by
  obtain ⟨st, r', hdv, hcall, hl, hs⟩ := analyze_call_ok_elim conv cid hok
  rw [hcall]
  constructor
  · show r'.sensitive_info_shared = true
    rw [hs]
    exact any_stepShared_of_disclosed conv key hdisc
  · show key ∈ labelsOf r'
    rw [hl, mem_loopLabels]
    refine ⟨hdisc, lookupDefault_not_mem st _ false ?_⟩
    rw [detect_verification_keys conv st hdv]
    exact hunmapped

/-- C1, witness for the amended theorem at `convC1` with the unmapped
label Balance. -/
theorem claim_C1_witness :
    sharedFlag (analyze_call convC1 "c1") = true ∧
    "Balance" ∈ violationLabels (analyze_call convC1 "c1") :=
  claim_C1_amended convC1 "c1" "Balance" (by decide) (by decide) (by decide)

/-- C2, counterexample: the agent utterance "can you confirm your date
of birth" does NOT match the DOB verification pattern (the pattern
requires the category keyword BEFORE the confirm/verify/check keyword),
so on `convC2` the result has `verification_done = false` and the later
DOB disclosure IS listed as a violation — both halves of the claim fail. -/
theorem claim_C2_counterexample :
    verificationDoneOf (analyze_call convC2 "c2") = false ∧
    "DOB" ∈ violationLabels (analyze_call convC2 "c2") := by decide

/-- C2, amended: with a phrase the pattern of the code does match — the
category keyword followed within thirty characters by a confirm keyword,
as in "your date of birth is what i will confirm" — an earlier agent
verification utterance followed by a later DOB-pattern disclosure yields
`verification_done = true` and no violation at all for the disclosure. -/
theorem claim_C2_amended :
    verificationDoneOf (analyze_call convC2A "c2a") = true ∧
    violationLabels (analyze_call convC2A "c2a") = [] := by decide

/-- C3, counterexample: on a degenerate conversation the metrics record
does not contain the fields `silence_duration`, `overtalk_duration` or
any total-duration field at all — it is exactly the two-field record
`{"silence_pct": 0, "overtalk_pct": 0}` — so the claim that all five
fields are present and zero fails. -/
theorem claim_C3_counterexample :
    dictLookup (analyze_silence_overtalk convC3) "silence_duration" = none ∧
    dictLookup (analyze_silence_overtalk convC3) "total_call_duration" = none ∧
    dictLookup (analyze_silence_overtalk convC3) "overtalk_duration" = none := by decide

/-- C3, amended: for every non-empty conversation whose computed
`total_duration` (max end time minus min start time) is at most zero,
the Timing Analyzer returns the record containing exactly the two fields
`silence_pct` and `overtalk_pct`, both zero; the other three fields are
absent in this degenerate case. -/
theorem claim_C3_amended (conv : List Utterance) (hne : conv ≠ [])
    (hdur : maxEtimes conv - minStimes conv ≤ 0) :
    analyze_silence_overtalk conv = [("silence_pct", 0), ("overtalk_pct", 0)] := by
  cases conv with
  | nil => exact absurd rfl hne
  | cons e rest =>
    simp only [analyze_silence_overtalk, List.isEmpty_cons, Bool.false_eq_true,
      if_false]
    rw [if_pos hdur]

/-- C3, witness for the amended theorem at the zero-length `convC3`. -/
theorem claim_C3_witness :
    analyze_silence_overtalk convC3 = [("silence_pct", 0), ("overtalk_pct", 0)] :=
  claim_C3_amended convC3 (by decide) (by decide)

/-- C4, counterexample: `detect_verification` accesses
`entry["text"].lower()` directly, so on an agent utterance whose text is
absent or not a string it raises (KeyError / AttributeError) instead of
treating the text as empty, and `analyze_call` on such a conversation
raises as well. -/
theorem claim_C4_counterexample :
    exceptOk (detect_verification [⟨"Agent", some PyVal.VNone, 0, 1⟩]) = false ∧
    exceptOk (detect_verification [⟨"Agent", none, 0, 1⟩]) = false ∧
    exceptOk (analyze_call [⟨"Agent", some PyVal.VNone, 0, 1⟩] "c4") = false := by decide

/-- Helper for C4: the verification loop raises whenever some agent
utterance has absent or non-string text. -/
theorem detect_verification_go_bad_text (conv : List Utterance) :
    ∀ st, (∃ e ∈ conv, pyLower e.speaker = "agent" ∧
        (e.text = none ∨ e.text = some PyVal.VNone)) →
      exceptOk (detect_verification_go st conv) = false := by
  induction conv with
  | nil =>
    intro st h
    obtain ⟨e, he, _⟩ := h
    exact absurd he (List.not_mem_nil e)
  | cons u rest ih =>
    intro st h
    unfold detect_verification_go
    by_cases hsp : pyLower u.speaker = "agent"
    · rw [if_pos hsp]
      cases ht : u.text with
      | none => rfl
      | some v =>
        cases v with
        | VNone => rfl
        | VStr s =>
          apply ih
          obtain ⟨e, he, hesp, het⟩ := h
          rcases List.mem_cons.mp he with rfl | hmem
          · rw [ht] at het
            rcases het with h1 | h1 <;> exact absurd h1 (by simp)
          · exact ⟨e, hmem, hesp, het⟩
    · rw [if_neg hsp]
      apply ih
      obtain ⟨e, he, hesp, het⟩ := h
      rcases List.mem_cons.mp he with rfl | hmem
      · exact absurd hesp hsp
      · exact ⟨e, hmem, hesp, het⟩

/-- C4, amended: `detect_profanity` and `detect_sensitive_info` coerce
any value with `str()` and so tolerate non-string text (producing no
match for None), and the disclosure loop of `analyze_call` skips
non-string text; but `detect_verification` does NOT tolerate it: on any
conversation containing an agent utterance with absent or non-string
text it raises instead of returning. -/
theorem claim_C4_amended :
    (detect_profanity PyVal.VNone = [] ∧ detect_sensitive_info PyVal.VNone = none) ∧
    ∀ conv : List Utterance,
      (∃ e ∈ conv, pyLower e.speaker = "agent" ∧
        (e.text = none ∨ e.text = some PyVal.VNone)) →
      exceptOk (detect_verification conv) = false := by
  refine ⟨by decide, ?_⟩
  intro conv h
  exact detect_verification_go_bad_text conv initVerification h

/-- C4, witness for the amended theorem on a one-utterance conversation
with non-string agent text. -/
theorem claim_C4_witness :
    exceptOk (detect_verification [⟨"Agent", some PyVal.VNone, 2, 3⟩]) = false :=
  claim_C4_amended.2 [⟨"Agent", some PyVal.VNone, 2, 3⟩]
    ⟨⟨"Agent", some PyVal.VNone, 2, 3⟩, by decide, by decide, Or.inr rfl⟩

/-- C5, counterexample: analyzing an empty conversation does fail, but
not with a structured Input error identifying the conversation — the
uncaught ValueError from `min()` over an empty sequence propagates. -/
theorem claim_C5_counterexample :
    exceptOk (analyze_call ([] : List Utterance) "c5") = false ∧
    isStructuredInputError (analyze_call ([] : List Utterance) "c5") = false := by decide

/-- C5, amended: analyzing an empty conversation fails by raising the
uncaught `ValueError` of `min()` over an empty sequence (so no result is
returned), rather than reporting a structured Input error identifying
the empty conversation. -/
theorem claim_C5_amended (cid : String) :
    analyze_call [] cid = .error (.valueError "min() arg is an empty sequence") := rfl

/-- C6: for every conversation analyzed without an exception and every
sensitive-info label with a mapped verification category, a violation
with that label is present exactly when the label was disclosed by some
agent utterance AND the flag of that category is false in the final
end-of-conversation verification state.  In particular a disclosure
occurring before a later agent verification assertion of the matching
category is not flagged, since only the final state is consulted. -/
theorem claim_C6_final_state_crossref (conv : List Utterance) (cid key : String)
    (hok : exceptOk (analyze_call conv cid) = true)
    (_hmapped : (key ++ "_verification") ∈
      ["DOB_verification", "Address_verification", "SSN_verification"]) :
    key ∈ violationLabels (analyze_call conv cid) ↔
      disclosedByAgent conv key = true ∧
      finalVerifFlag conv (key ++ "_verification") = false := by
  obtain ⟨st, r', hdv, hcall, hl, _⟩ := analyze_call_ok_elim conv cid hok
  rw [hcall]
  show key ∈ labelsOf r' ↔ _
  rw [hl, mem_loopLabels]
  unfold finalVerifFlag
  rw [hdv]

/-- C6, witness at `convC6W`: the SSN disclosure comes after an SSN
verification phrase; the final SSN flag is true and no SSN violation is
present. -/
theorem claim_C6_witness :
    "SSN" ∈ violationLabels (analyze_call convC6W "w6") ↔
      disclosedByAgent convC6W "SSN" = true ∧
      finalVerifFlag convC6W ("SSN" ++ "_verification") = false :=
  claim_C6_final_state_crossref convC6W "w6" "SSN" (by decide) (by decide)

/-- C7: the conversation whose only sensitive content is the agent
utterance "my social security number is 123-45-6789", with no agent
utterance matching the SSN verification pattern, yields
`sensitive_info_shared = true` and exactly one violation, whose
`missing_verification` is "SSN". -/
theorem claim_C7_ssn_violation :
    sharedFlag (analyze_call convC7 "c7") = true ∧
    violationLabels (analyze_call convC7 "c7") = ["SSN"] := by decide

/-- C8: for the two utterances `[0,10)` and `[3,6)` (fully nested), the
Timing Analyzer computes `silence_duration = 0` and
`overtalk_duration = 3`. -/
theorem claim_C8_nested_overtalk :
    dictLookup (analyze_silence_overtalk convC8) "silence_duration" = some 0 ∧
    dictLookup (analyze_silence_overtalk convC8) "overtalk_duration" = some 3 := by decide

/-- C9: with the sequence of the caller threaded as explicit state, the
Timing Analyzer returns the utterance sequence of the caller unchanged (the
internal sort builds a fresh list) while computing the same metrics as
`analyze_silence_overtalk`. -/
theorem claim_C9_frame (conv : List Utterance) :
    (analyze_silence_overtalk_st conv).2 = conv ∧
    (analyze_silence_overtalk_st conv).1 = analyze_silence_overtalk conv := by
  unfold analyze_silence_overtalk_st analyze_silence_overtalk
  by_cases h1 : conv.isEmpty
  · simp [h1]
  · by_cases h2 : maxEtimes conv - minStimes conv ≤ 0 <;> simp [h1, h2]

/-- C10: profanity hits are stored only under the speaker keys "agent"
and "customer".  First half: for every conversation whose utterances all
have speakers lowercasing to "agent" or "customer", any KeyError raised
by `analyze_call` can only be the text-key one — the per-speaker
recording never faults.  Second half: an utterance with speaker
"Supervisor" and profane text makes `analyze_call` raise
`KeyError("supervisor")` instead of returning a result. -/
theorem claim_C10_speaker_keys :
    (∀ (conv : List Utterance) (cid k : String),
       (∀ e ∈ conv, pyLower e.speaker = "agent" ∨ pyLower e.speaker = "customer") →
       analyze_call conv cid = .error (.keyError k) → k = "text") ∧
    analyze_call [⟨"Supervisor", some (.VStr "damn it"), 0, 1⟩] "c10" =
      .error (.keyError "supervisor") := by
  constructor
  · intro conv cid k hsp hcall
    cases conv with
    | nil =>
      rw [show analyze_call [] cid =
        .error (.valueError "min() arg is an empty sequence") from rfl] at hcall
      injection hcall with hcall
      exact PyError.noConfusion hcall
    | cons e rest =>
      cases hdv : detect_verification (e :: rest) with
      | error er =>
        have her : (Except.error er : Except PyError CallResult) = .error (.keyError k) := by
          rw [← hcall]
          show Except.error er =
            (match detect_verification (e :: rest) with
              | .error err => (.error err : Except PyError CallResult)
              | .ok vs => analyzeLoop vs (initResult cid (e :: rest) vs) (e :: rest))
          rw [hdv]
        injection her with her
        subst her
        rcases detect_verification_go_err_shape (e :: rest) initVerification _ hdv with h1 | h1
        · injection h1
        · exact PyError.noConfusion h1
      | ok st =>
        have hloop : analyzeLoop st (initResult cid (e :: rest) st) (e :: rest) =
            .error (.keyError k) := by
          rw [← hcall]
          show analyzeLoop st (initResult cid (e :: rest) st) (e :: rest) =
            (match detect_verification (e :: rest) with
              | .error err => (.error err : Except PyError CallResult)
              | .ok vs => analyzeLoop vs (initResult cid (e :: rest) vs) (e :: rest))
          rw [hdv]
        exact analyzeLoop_err_key st (e :: rest) _ k hsp hloop
  · rfl

/-- C10, witness: discharging the universal half at a conversation
whose only KeyError is the text-key one. -/
theorem claim_C10_witness : "text" = "text" :=
  claim_C10_speaker_keys.1 [⟨"Agent", none, 0, 1⟩] "w10" "text" (by decide) (by rfl)

end CallAnalyzer
